import Mathlib

/-!
Verification of the STORM article-synthesis pipeline
(`knowledge_storm/collaborative_storm/modules/article_generation.py`,
`.../grounded_question_answering.py`,
`knowledge_storm/storm_wiki/modules/knowledge_curation.py`,
`.../persona_generator.py`).

Text is embedded as Lean `String` (a list of characters); Python's
whitespace word splitting (`str.split()`) is embedded as a character
scanner.  Stateful code (node-cache mutation, dictionary building inside
the thread-pool gather loop) is embedded as explicit state passing.
Sub-module LLM calls (`dspy.Predict(...)`) are abstracted as function
parameters, so that "the generator is not invoked" becomes "the result is
the same for every generator function".
-/

namespace Storm

/-- Count the words of a character list the way Python `str.split()` does:
maximal runs of non-whitespace characters.  `inWord` records whether the
previous character belonged to a word. -/
def countWordsAux (inWord : Bool) : List Char → Nat
  | [] => 0
  | c :: rest =>
      if c.isWhitespace then countWordsAux false rest
      else (if inWord then 0 else 1) + countWordsAux true rest

/-- Number of whitespace-separated words of a string, i.e. Python
`len(s.split())`. -/
def countWords (s : String) : Nat :=
  countWordsAux false s.data

/-- Join a list of strings with a newline between consecutive elements,
i.e. Python `"\n".join(lines)`. -/
def joinLines : List String → String
  | [] => ""
  | [x] => x
  | x :: xs => x ++ "\n" ++ joinLines xs

/-- Split a character list at newline characters (Python
`s.split("\n")`); always returns at least one chunk. -/
def splitLinesAux (cur : List Char) : List Char → List (List Char)
  | [] => [cur.reverse]
  | c :: rest =>
      if c = '\n' then cur.reverse :: splitLinesAux [] rest
      else splitLinesAux (c :: cur) rest

/-- Python `s.split("\n")`. -/
def splitLines (s : String) : List String :=
  (splitLinesAux [] s.data).map String.mk

/-- Python `s.strip()`: remove whitespace from both ends. -/
def pyStrip (s : String) : String :=
  String.mk (((s.data.dropWhile Char.isWhitespace).reverse.dropWhile
    Char.isWhitespace).reverse)

/-- Python `s.strip(c)` for a single character `c`: remove that character
from both ends. -/
def pyStripChar (c : Char) (s : String) : String :=
  String.mk (((s.data.dropWhile (· = c)).reverse.dropWhile (· = c)).reverse)

/-- Python `s.replace(old, "")` for a single character: drop every
occurrence. -/
def removeChar (c : Char) (s : String) : String :=
  String.mk (s.data.filter (· ≠ c))

/-- A unit of retrieved evidence (`Information` in `interface.py`): a URL,
ordered snippets, and the originating question/query recorded in `meta`. -/
structure Information where
  url : String
  snippets : List String
  question : String
  query : String
deriving DecidableEq, Repr

/-- A node of the knowledge tree. Modelled from the spec: `KnowledgeNode`
lives in `dataclass.py`, which is not under `src/`; the spec describes it
as "a tree where each node is a section topic owning a set of citation
indices and child nodes; supports synthesized-text caching per node with a
dirty flag (`need_regenerate_synthesize_output`)".  The citation set is
embedded as a list of indices. -/
inductive KnowledgeNode where
  | mk (name : String) (content : List Nat) (synthesize_output : Option String)
      (need_regenerate_synthesize_output : Bool) (children : List KnowledgeNode)
deriving Repr

def KnowledgeNode.name : KnowledgeNode → String
  | .mk n _ _ _ _ => n

def KnowledgeNode.content : KnowledgeNode → List Nat
  | .mk _ c _ _ _ => c

def KnowledgeNode.synthesize_output : KnowledgeNode → Option String
  | .mk _ _ s _ _ => s

def KnowledgeNode.need_regenerate_synthesize_output : KnowledgeNode → Bool
  | .mk _ _ _ f _ => f

def KnowledgeNode.children : KnowledgeNode → List KnowledgeNode
  | .mk _ _ _ _ ch => ch

/-- Replace the synthesized-output cache and dirty flag of a node
(the effect of the two assignments at the end of `gen_section`). -/
def KnowledgeNode.withCache : KnowledgeNode → Option String → Bool → KnowledgeNode
  | .mk n c _ _ ch, so, flag => .mk n c so flag ch

/-- The knowledge base (`KnowledgeBase` in `dataclass.py`, not under
`src/`). Modelled from the spec: a topic, a root of the section tree, and
the citation-index-to-Information dictionary
(`info_uuid_to_info_dict`). -/
structure KnowledgeBase where
  topic : String
  root : KnowledgeNode
  info_uuid_to_info_dict : Nat → Information

mutual

/-- Modelled from the spec: `KnowledgeNode.collect_all_content`
(in `dataclass.py`, not under `src/`) collects "the node's full
transitively-owned citation set" — the node's own citation indices
together with those of all descendants. -/
def collect_all_content : KnowledgeNode → List Nat
  | .mk _ c _ _ ch => c ++ collect_all_content_list ch

/-- Recursion helper of `collect_all_content` over the child list. -/
def collect_all_content_list : List KnowledgeNode → List Nat
  | [] => []
  | n :: rest => collect_all_content n ++ collect_all_content_list rest

end

/-- One formatted evidence entry of the node digest
(`f"[{index}]: {snippet} (Question: ... Query: ...)"` in
`_get_cited_information_string`); the snippet is `info.snippets[0]`,
embedded as `headD ""` (the source indexes `[0]`, which requires a
non-empty snippet list). -/
def citedEntry (index : Nat) (info : Information) : String :=
  "[" ++ toString index ++ "]: " ++ info.snippets.headD "" ++
    " (Question: " ++ info.question ++ ". Query: " ++ info.query ++ ")"

/-- The entry-selection loop of `_get_cited_information_string`: keep
appending whole entries while the running word count stays within
`maxWords`; stop at the first entry that would push it over
(`if cur_snippet_length + cur_word_count > max_words: break`). -/
def selectEntries (maxWords : Nat) : List String → Nat → List String
  | [], _ => []
  | e :: rest, cur =>
      if countWords e + cur > maxWords then []
      else e :: selectEntries maxWords rest (cur + countWords e)

/-- `ArticleGenerationModule._get_cited_information_string`: sort the
citation set (`sorted(list(all_citation_index))`, the set embedded as
`dedup`), format each cited Information, take entries up to the word
budget, and join with newlines. -/
def get_cited_information_string (all_citation_index : List Nat)
    (kb : KnowledgeBase) (maxWords : Nat) : String :=
  let sortedIdx := (all_citation_index.dedup).insertionSort (· ≤ ·)
  let entries := sortedIdx.map
    (fun index => citedEntry index (kb.info_uuid_to_info_dict index))
  joinLines (selectEntries maxWords entries 0)

/-- The generation branch of `gen_section` (lines 50-62 of
`article_generation.py`): collect the transitive citation set, build the
evidence digest with the default 1500-word budget, call the section
generator (`self.write_section(...)` followed by `clean_up_section`,
abstracted as the function `gen : topic → info → section name → output`),
and store the result in the node's cache with the dirty flag cleared.
The returned pair is the produced string together with the updated node
(the source mutates `node` in place). -/
def gen_section_generate (gen : String → String → String → String)
    (topic : String) (n : KnowledgeNode) (kb : KnowledgeBase) :
    String × Option KnowledgeNode :=
  let all_citation_index := collect_all_content n
  let information := get_cited_information_string all_citation_index kb 1500
  let synthesize_output := gen topic information n.name
  (synthesize_output, some (n.withCache (some synthesize_output) false))

/-- `ArticleGenerationModule.gen_section`: empty node (or `None`) returns
`""`; a present, truthy (non-empty) cached `synthesize_output` with a
clear dirty flag is returned as is; otherwise the generator runs. -/
def gen_section (gen : String → String → String → String) (topic : String)
    (node : Option KnowledgeNode) (kb : KnowledgeBase) :
    String × Option KnowledgeNode :=
  match node with
  | none => ("", none)
  | some n =>
      if n.content.length = 0 then ("", some n)
      else
        match n.synthesize_output with
        | some s =>
            if s ≠ "" ∧ n.need_regenerate_synthesize_output = false then
              (s, some n)
            else gen_section_generate gen topic n kb
        | none => gen_section_generate gen topic n kb

/-- Join a list of strings with a separator (Python `sep.join(l)`). -/
def joinWith (sep : String) : List String → String
  | [] => ""
  | [x] => x
  | x :: xs => x ++ sep ++ joinWith sep xs

/-- The dictionary key used at the fan-out/gather boundary:
`" -> ".join(node.get_path_from_root())`. -/
def path_key (p : List String) : String :=
  joinWith " -> " p

mutual

/-- Modelled from the spec: `KnowledgeBase.collect_all_nodes` together
with each node's `get_path_from_root` (both in `dataclass.py`, not under
`src/`).  Walks the tree collecting every node paired with its
root-to-node path of section names; `anc` is the list of ancestor
names. -/
def collect_nodes_with_path (anc : List String) :
    KnowledgeNode → List (List String × KnowledgeNode)
  | .mk nm c so flag ch =>
      (anc ++ [nm], .mk nm c so flag ch) ::
        collect_nodes_with_path_list (anc ++ [nm]) ch

/-- Recursion helper of `collect_nodes_with_path` over a child list. -/
def collect_nodes_with_path_list (anc : List String) :
    List KnowledgeNode → List (List String × KnowledgeNode)
  | [] => []
  | n :: rest =>
      collect_nodes_with_path anc n ++ collect_nodes_with_path_list anc rest

end

/-- The per-node worker `_node_generate_paragraph` of
`ArticleGenerationModule.forward`: run `gen_section`, then drop the first
line when, after stripping whitespace and removing `*` and `#`, it equals
the node name. -/
def node_generate_paragraph (gen : String → String → String → String)
    (kb : KnowledgeBase) (n : KnowledgeNode) : String :=
  let node_gen_paragraph := (gen_section gen kb.topic (some n) kb).1
  let lines := splitLines node_gen_paragraph
  let lines2 :=
    if removeChar '#' (removeChar '*' (pyStrip (lines.headD ""))) = n.name
    then lines.drop 1 else lines
  joinLines lines2

/-- One assignment `node_to_paragraph[path] = paragraph` of the gather
loop, on the dictionary embedded as a partial map. -/
def dictUpdate (d : String → Option String) (k v : String) :
    String → Option String :=
  fun x => if x = k then some v else d x

/-- Fold the gather loop over a list of completed (key, paragraph) pairs,
starting from the dictionary `d`. -/
def buildDictFrom (d : String → Option String)
    (l : List (String × String)) : String → Option String :=
  l.foldl (fun acc kv => dictUpdate acc kv.1 kv.2) d

/-- The dictionary `node_to_paragraph` built by the gather loop when the
futures complete in the order of `l`. -/
def buildDict (l : List (String × String)) : String → Option String :=
  buildDictFrom (fun _ => none) l

mutual

/-- The reassembly `helper` of `ArticleGenerationModule.forward`:
pre-order walk emitting `"#" * level + " " + name` followed by the
paragraph looked up by path key.  A missing key raises `KeyError` in the
source; it is embedded as `getD ""` and the theorems only use assembled
outputs whose dictionary contains every path of the tree. -/
def assembleNode (lookup : String → Option String) (anc : List String)
    (level : Nat) : KnowledgeNode → List String
  | .mk nm _ _ _ ch =>
      let cur_path := path_key (anc ++ [nm])
      let hash_tag := String.mk (List.replicate level '#') ++ " "
      (hash_tag ++ nm ++ "\n" ++ (lookup cur_path).getD "") ::
        assembleNodeList lookup (anc ++ [nm]) (level + 1) ch

/-- Recursion helper of `assembleNode` over a child list
(`for child in cur_root.children: to_return.extend(helper(child, level + 1))`). -/
def assembleNodeList (lookup : String → Option String) (anc : List String)
    (level : Nat) : List KnowledgeNode → List String
  | [] => []
  | n :: rest =>
      assembleNode lookup anc level n ++ assembleNodeList lookup anc level rest

end

/-- `ArticleGenerationModule.forward`, with the completion order of the
worker pool made explicit: `order` is the list of (path, node) pairs in
the order the futures complete; the dictionary is built in that order and
the document is reassembled by the deterministic pre-order walk over
`root.children` at level 1. -/
def forward_from_order (gen : String → String → String → String)
    (kb : KnowledgeBase) (order : List (List String × KnowledgeNode)) :
    String :=
  joinLines (assembleNodeList
    (buildDict (order.map
      (fun pn => (path_key pn.1, node_generate_paragraph gen kb pn.2))))
    [kb.root.name] 1 kb.root.children)

/-- Key consistency of a pair list: any two pairs with the same key carry
the same value.  This is the condition under which the gather loop of
`ArticleGenerationModule.forward` is order-insensitive (distinct tree
nodes with the same root-to-node path string would overwrite each other
in `node_to_paragraph`). -/
def KeyConsistent (l : List (String × String)) : Prop :=
  ∀ p ∈ l, ∀ q ∈ l, p.1 = q.1 → p.2 = q.2

/-- The per-line query cleanup of `TopicExpert.forward` and
`AnswerQuestionModule.retrieve_information`
(`q.replace("-", "").strip().strip(QUOTE).strip(QUOTE).strip()`). -/
def clean_query (q : String) : String :=
  pyStrip (pyStripChar '"' (pyStripChar '"' (pyStrip (removeChar '-' q))))

/-- Query-list construction shared by both modules: split the raw LLM
output on newlines, clean each line, and truncate the list to the first
`max_search_queries` entries (`queries[: self.max_search_queries]`). -/
def parse_queries (raw : String) (max_search_queries : Nat) : List String :=
  ((splitLines raw).map clean_query).take max_search_queries

/-- The evidence digest loop of `TopicExpert.forward`
(`info += "\n".join(f"[{n + 1}]: {s}" for s in r.snippets[:1])` followed
by `info += "\n\n"`), with `n` the running enumeration index. -/
def topic_expert_info_aux (n : Nat) : List Information → String
  | [] => ""
  | r :: rest =>
      joinLines ((r.snippets.take 1).map
        (fun s => "[" ++ toString (n + 1) ++ "]: " ++ s)) ++ "\n\n" ++
        topic_expert_info_aux (n + 1) rest

/-- The full evidence digest of `TopicExpert.forward` before word-budget
truncation. -/
def topic_expert_info (results : List Information) : String :=
  topic_expert_info_aux 0 results

/-- Modelled from the spec:
`ArticleTextProcessing.limit_word_count_preserve_newline` (in `utils.py`,
not under `src/`).  The spec describes digest truncation as a silent
lossy word-budget policy that stops appending once the budget would be
exceeded and "always drops whole evidence units, never partial ones";
embedded as keeping the maximal prefix of newline-separated units whose
cumulative word count stays within the budget, rejoined with
newlines. -/
def limit_word_count_preserve_newline (s : String) (maxWords : Nat) :
    String :=
  joinLines (selectEntries maxWords (splitLines s) 0)

/-- The `dspy.Prediction` returned by `TopicExpert.forward`. -/
structure TEPrediction where
  queries : List String
  searched_results : List Information
  answer : String
deriving DecidableEq, Repr

/-- `TopicExpert.forward`.  The LLM sub-calls are abstracted as
parameters: `gen_queries_output` is the raw `generate_queries(...)`
output, `retrieve qs excl` is `self.retriever.retrieve(qs, excl)`
(`list(set(queries))` embedded as `dedup`), `answer_gen` is the
`answer_question` call, returning `Except` to embed a raised exception,
and `clean_answer` stands for
`ArticleTextProcessing.remove_uncompleted_sentences_with_citations`
(in `utils.py`, not under `src/`).  On an exception the error is dropped
(the source logs it) and the fixed fallback answer is used. -/
def topic_expert_forward (gen_queries_output : String)
    (retrieve : List String → List String → List Information)
    (answer_gen : String → String → String → Except String String)
    (clean_answer : String → String) (max_search_queries : Nat)
    (topic question ground_truth_url : String) : TEPrediction :=
  let queries := parse_queries gen_queries_output max_search_queries
  let searched_results := retrieve queries.dedup [ground_truth_url]
  let answer :=
    if searched_results.length > 0 then
      let info := topic_expert_info searched_results
      let info2 := limit_word_count_preserve_newline info 1000
      match answer_gen topic question info2 with
      | .ok a => clean_answer a
      | .error _ =>
          "Sorry, I cannot answer this question. Please ask another question."
    else
      "Sorry, I cannot find information for this question. Please ask another question."
  ⟨queries, searched_results, answer⟩

/-- Modelled from the spec: `trim_output_after_hint`
(in `collaborative_storm_utils.py`, not under `src/`).  Malformed LLM
output is "handled by best-effort string trimming": keep the text after
the first occurrence of the expected hint, stripped; return the string
unchanged when the hint does not occur. -/
def findAfter (hint : List Char) : List Char → Option (List Char)
  | [] => none
  | c :: rest =>
      if (c :: rest).take hint.length = hint then
        some ((c :: rest).drop hint.length)
      else findAfter hint rest

/-- String-level wrapper of `findAfter`; see its doc comment. -/
def trim_output_after_hint (s hint : String) : String :=
  match findAfter hint.data s.data with
  | some rest => pyStrip (String.mk rest)
  | none => s

/-- The query construction of
`AnswerQuestionModule.retrieve_information`: trim the raw output after
the `"Queries:"` hint, then split/clean/truncate exactly as
`parse_queries`. -/
def aq_parse_queries (raw : String) (max_search_queries : Nat) :
    List String :=
  parse_queries (trim_output_after_hint raw "Queries:") max_search_queries

/-- Modelled from the spec: `format_search_results`
(in `collaborative_storm_utils.py`, not under `src/`), in the default
`"brief"` mode, which "takes only the first snippet of each
Information"; produces the numbered evidence text and the
citation-index-to-Information mapping.  Zero retrieved Information units
yield the empty text. -/
def format_search_results (results : List Information) :
    String × List (Nat × Information) :=
  (joinWith "\n"
      (results.mapIdx (fun i r =>
        "[" ++ toString (i + 1) ++ "]: " ++ r.snippets.headD "")),
    results.mapIdx (fun i r => (i + 1, r)))

/-- Accumulate decimal digits into a number. -/
def charsToNat (l : List Char) : Nat :=
  l.foldl (fun a c => a * 10 + (c.toNat - '0'.toNat)) 0

/-- Split a character list at commas. -/
def splitOnCommaAux (cur : List Char) : List Char → List (List Char)
  | [] => [cur.reverse]
  | c :: rest =>
      if c = ',' then cur.reverse :: splitOnCommaAux [] rest
      else splitOnCommaAux (c :: cur) rest

/-- Drop spaces from both ends of a character list. -/
def trimSpaces (l : List Char) : List Char :=
  ((l.dropWhile (· = ' ')).reverse.dropWhile (· = ' ')).reverse

/-- Parse the inside of a citation bracket as comma-separated decimal
numbers (spaces around each number allowed); `none` when the text is not
of that shape. -/
def parseNums (l : List Char) : Option (List Nat) :=
  let parts := (splitOnCommaAux [] l).map trimSpaces
  if parts.all (fun p => !p.isEmpty && p.all Char.isDigit) then
    some (parts.map charsToNat)
  else none

/-- Print a list of citation numbers as separate brackets
`[n1][n2]...`. -/
def renderNums (ns : List Nat) : String :=
  String.join (ns.map (fun n => "[" ++ toString n ++ "]"))

/-- Character scanner of `separate_citations`: outside a bracket, copy
characters and enter buffering at `[`; inside, collect until `]` and, if
the buffer parses as comma-separated numbers, emit them as separate
brackets, otherwise emit the bracket verbatim. -/
def sepAux : Option (List Char) → List Char → List Char
  | none, [] => []
  | some b, [] => '[' :: b.reverse
  | none, c :: rest =>
      if c = '[' then sepAux (some []) rest else c :: sepAux none rest
  | some b, c :: rest =>
      if c = ']' then
        match parseNums b.reverse with
        | some ns => (renderNums ns).data ++ sepAux none rest
        | none => '[' :: (b.reverse ++ ']' :: sepAux none rest)
      else if c = '[' then '[' :: (b.reverse ++ sepAux (some []) rest)
      else sepAux (some (c :: b)) rest

/-- Modelled from the spec: `separate_citations`
(in `collaborative_storm_utils.py`, not under `src/`), the deterministic
text-cleanup pass "collapsing [1, 2] into [1][2]" — it rewrites every
compound citation bracket of comma-separated numbers into adjacent
single-number brackets and leaves all other text unchanged. -/
def separate_citations (s : String) : String :=
  String.mk (sepAux none s.data)

/-- The `dspy.Prediction` returned by `AnswerQuestionModule.forward`
(the `cited_info` field, produced by `extract_cited_storm_info` which is
not under `src/`, is omitted; no claim concerns it). -/
structure AQPrediction where
  question : String
  queries : List String
  raw_retrieved_info : List Information
  response : String
deriving DecidableEq, Repr

/-- `AnswerQuestionModule.forward` composed with
`retrieve_information`.  Sub-calls abstracted as in
`topic_expert_forward`; `answer_gen` takes topic, question, info and
style; `clean_answer` stands for
`remove_uncompleted_sentences_with_citations`.  The sentinel answer is
kept whenever the formatted evidence text is empty. -/
def answer_question_forward (query_gen_output : String)
    (retrieve : List String → List Information)
    (answer_gen : String → String → String → String → String)
    (clean_answer : String → String) (max_search_queries : Nat)
    (topic question style : String) : AQPrediction :=
  let queries := aq_parse_queries query_gen_output max_search_queries
  let searched_results := (retrieve queries.dedup).map
    (fun r => { r with question := question })
  let fmt := format_search_results searched_results
  let info_text := fmt.1
  let response :=
    if info_text ≠ "" then
      separate_citations (trim_output_after_hint
        (clean_answer (answer_gen topic question info_text style))
        "Now give your response. (Try to use as many different sources as possible and do not hallucinate.)")
    else "Sorry, there is insufficient information to answer the question."
  ⟨question, queries, searched_results, response⟩

/-- The fixed default persona prepended by
`StormPersonaGenerator.generate_persona`. -/
def default_persona : String :=
  "基础事实撰写者：专注于广泛覆盖该主题的基础事实的撰写者。"

/-- `StormPersonaGenerator.generate_persona`: the candidate list produced
by `create_writer_with_persona` (abstracted as the input `candidates`) is
truncated to `max_num_persona` entries and the fixed default persona is
prepended. -/
def generate_persona (candidates : List String) (max_num_persona : Nat) :
    List String :=
  default_persona :: candidates.take max_num_persona

/-- Keep only the first snippet of an Information unit (used to state
that the digests ignore everything beyond the first snippet). -/
def truncateSnippets (i : Information) : Information :=
  { i with snippets := i.snippets.take 1 }

/-- Concrete evidence unit for witnesses. -/
def sampleInfo : Information :=
  ⟨"http://e.x", ["snippet one", "tail snippet"], "what?", "which query"⟩

/-- Concrete cached leaf node for witnesses. -/
def sampleNodeA : KnowledgeNode := .mk "Alpha" [1] (some "cached alpha") false []

/-- Concrete uncached leaf node for witnesses. -/
def sampleNodeB : KnowledgeNode := .mk "Beta" [2] none false []

/-- Concrete two-child tree root for witnesses. -/
def sampleRoot : KnowledgeNode := .mk "root" [] none false [sampleNodeA, sampleNodeB]

/-- Concrete knowledge base for witnesses. -/
def sampleKB : KnowledgeBase := ⟨"topic", sampleRoot, fun _ => sampleInfo⟩

/-- Concrete section generator for witnesses. -/
def sampleGen : String → String → String → String :=
  fun _ _ sec => "text for " ++ sec

/-!  Helper lemmas. -/

/-- Splitting a character list at a whitespace character splits the word
count. -/
theorem countWordsAux_append_ws (a : List Char) (c : Char) (b : List Char)
    (hc : c.isWhitespace = true) (inWord : Bool) :
    countWordsAux inWord (a ++ c :: b) =
      countWordsAux inWord a + countWordsAux false b := by
  induction a generalizing inWord with
  | nil => simp [countWordsAux, hc]
  | cons x xs ih =>
      by_cases hx : x.isWhitespace
      · simp [countWordsAux, hx, ih]
      · simp [countWordsAux, hx, ih, Nat.add_assoc]

/-- The word count of a newline-join is the sum of the word counts of the
pieces. -/
theorem countWords_joinLines (l : List String) :
    countWords (joinLines l) = (l.map countWords).sum := by
  induction l with
  | nil => simp [joinLines, countWords, countWordsAux]
  | cons x xs ih =>
      cases xs with
      | nil => simp [joinLines]
      | cons y ys =>
          show countWords (x ++ "\n" ++ joinLines (y :: ys)) = _
          have hdata : (x ++ "\n" ++ joinLines (y :: ys)).data
              = x.data ++ '\n' :: (joinLines (y :: ys)).data := by
            simp [String.data_append]
          have : countWords (x ++ "\n" ++ joinLines (y :: ys))
              = countWords x + countWords (joinLines (y :: ys)) := by
            unfold countWords
            rw [hdata]
            exact countWordsAux_append_ws x.data '\n' (joinLines (y :: ys)).data
              (by decide) false
          rw [this, ih]
          simp

/-- `splitLinesAux` never returns the empty list. -/
theorem splitLinesAux_ne_nil (cur : List Char) (l : List Char) :
    splitLinesAux cur l ≠ [] := by
  induction l generalizing cur with
  | nil => simp [splitLinesAux]
  | cons c rest ih =>
      by_cases h : c = '\n'
      · simp [splitLinesAux, h]
      · simpa [splitLinesAux, h] using ih (c :: cur)

/-- `splitLines` never returns the empty list (Python `split` always
yields at least one piece). -/
theorem splitLines_ne_nil (s : String) : splitLines s ≠ [] := by
  unfold splitLines
  intro h
  exact splitLinesAux_ne_nil [] s.data (by simpa using h)

/-- The selected entries' total word count never brings the running count
above the budget. -/
theorem selectEntries_sum_le (maxWords : Nat) (es : List String) (cur : Nat)
    (h : cur ≤ maxWords) :
    cur + ((selectEntries maxWords es cur).map countWords).sum ≤ maxWords := by
  induction es generalizing cur with
  | nil => simpa [selectEntries]
  | cons e rest ih =>
      by_cases hov : countWords e + cur > maxWords
      · simpa [selectEntries, hov]
      · have h' : cur + countWords e ≤ maxWords := by omega
        have := ih (cur + countWords e) h'
        simp only [selectEntries, hov, if_false, List.map_cons, List.sum_cons]
        omega

/-- Entry selection keeps a prefix of the entry list: truncation drops
whole entries only. -/
theorem selectEntries_eq_take (maxWords : Nat) (es : List String) (cur : Nat) :
    ∃ k, selectEntries maxWords es cur = es.take k := by
  induction es generalizing cur with
  | nil => exact ⟨0, rfl⟩
  | cons e rest ih =>
      by_cases hov : countWords e + cur > maxWords
      · exact ⟨0, by simp [selectEntries, hov]⟩
      · obtain ⟨k, hk⟩ := ih (cur + countWords e)
        exact ⟨k + 1, by simp [selectEntries, hov, hk]⟩

/-- Building the gather dictionary from a start dictionary `d` is the
dictionary built from the empty start, falling back to `d` on missing
keys. -/
theorem buildDictFrom_eq (d : String → Option String)
    (l : List (String × String)) (x : String) :
    buildDictFrom d l x =
      match buildDict l x with
      | some v => some v
      | none => d x := by
  induction l generalizing d with
  | nil => simp [buildDictFrom, buildDict]
  | cons kv rest ih =>
      show buildDictFrom (dictUpdate d kv.1 kv.2) rest x = _
      rw [ih]
      have hcons : buildDict (kv :: rest) x =
          match buildDict rest x with
          | some v => some v
          | none => dictUpdate (fun _ => none) kv.1 kv.2 x := by
        show buildDictFrom (dictUpdate (fun _ => none) kv.1 kv.2) rest x = _
        rw [ih]
      rw [hcons]
      cases buildDict rest x with
      | some v => rfl
      | none =>
          by_cases hx : x = kv.1
          · simp [dictUpdate, hx]
          · simp [dictUpdate, hx]

/-- A key the gather dictionary maps to `v` occurs in the pair list. -/
theorem buildDict_mem_of_eq_some (l : List (String × String)) (x v : String)
    (h : buildDict l x = some v) : (x, v) ∈ l := by
  induction l with
  | nil => simp [buildDict, buildDictFrom] at h
  | cons kv rest ih =>
      have hc : buildDict (kv :: rest) x =
          match buildDict rest x with
          | some w => some w
          | none => dictUpdate (fun _ => none) kv.1 kv.2 x := by
        show buildDictFrom (dictUpdate (fun _ => none) kv.1 kv.2) rest x = _
        rw [buildDictFrom_eq]
      rw [hc] at h
      cases hrest : buildDict rest x with
      | some w =>
          rw [hrest] at h
          simp at h
          subst h
          exact List.mem_cons_of_mem _ (ih hrest)
      | none =>
          rw [hrest] at h
          simp [dictUpdate] at h
          by_cases hx : x = kv.1
          · simp [hx] at h
            subst hx
            subst h
            exact List.mem_cons_self _ _
          · simp [hx] at h

/-- A key the gather dictionary misses occurs nowhere in the pair
list. -/
theorem buildDict_not_mem_of_eq_none (l : List (String × String))
    (x : String) (h : buildDict l x = none) : ∀ v, (x, v) ∉ l := by
  intro v hv
  induction l with
  | nil => simp at hv
  | cons kv rest ih =>
      have hc : buildDict (kv :: rest) x =
          match buildDict rest x with
          | some w => some w
          | none => dictUpdate (fun _ => none) kv.1 kv.2 x := by
        show buildDictFrom (dictUpdate (fun _ => none) kv.1 kv.2) rest x = _
        rw [buildDictFrom_eq]
      rw [hc] at h
      cases hrest : buildDict rest x with
      | some w => rw [hrest] at h; simp at h
      | none =>
          rw [hrest] at h
          simp [dictUpdate] at h
          rcases List.mem_cons.mp hv with h1 | h2
          · exact h (by rw [← h1])
          · exact ih hrest h2

/-- On a key-consistent pair list, every member pair is reflected by the
dictionary. -/
theorem buildDict_eq_some_of_mem (l : List (String × String))
    (hc : KeyConsistent l) (x v : String) (h : (x, v) ∈ l) :
    buildDict l x = some v := by
  cases hbd : buildDict l x with
  | some w =>
      have hw := buildDict_mem_of_eq_some l x w hbd
      have := hc (x, w) hw (x, v) h rfl
      simp at this
      rw [this]
  | none => exact absurd h (buildDict_not_mem_of_eq_none l x hbd v)

/-- The gather dictionary is invariant under permutations of the
completion order, provided the pair list is key-consistent. -/
theorem buildDict_perm (l1 l2 : List (String × String))
    (hperm : l1.Perm l2) (hc : KeyConsistent l1) :
    buildDict l1 = buildDict l2 := by
  funext x
  have hc2 : KeyConsistent l2 := by
    intro p hp q hq
    exact hc p (hperm.mem_iff.mpr hp) q (hperm.mem_iff.mpr hq)
  cases h1 : buildDict l1 x with
  | some v =>
      have hmem := buildDict_mem_of_eq_some l1 x v h1
      exact (buildDict_eq_some_of_mem l2 hc2 x v (hperm.mem_iff.mp hmem)).symm
  | none =>
      cases h2 : buildDict l2 x with
      | none => rfl
      | some w =>
          have hmem := buildDict_mem_of_eq_some l2 x w h2
          have := buildDict_not_mem_of_eq_none l1 x h1 w
            (hperm.mem_iff.mpr hmem)
          exact absurd this (by simp)

/-!  Claim theorems. -/

/-- C1: for every KnowledgeNode with non-empty content, a present
non-empty cached `synthesize_output` and a clear
`need_regenerate_synthesize_output` flag, `gen_section` returns exactly
the cached string, leaves the node unchanged, and does not invoke the
section generator — the result is the same for every generator
function. -/
theorem claim_C1 (gen gen2 : String → String → String → String)
    (topic : String) (n : KnowledgeNode) (kb : KnowledgeBase) (s : String)
    (hcontent : n.content ≠ [])
    (hcache : n.synthesize_output = some s) (hne : s ≠ "")
    (hflag : n.need_regenerate_synthesize_output = false) :
    gen_section gen topic (some n) kb = (s, some n) ∧
    gen_section gen topic (some n) kb = gen_section gen2 topic (some n) kb := by
  have hlen : ¬ n.content.length = 0 := by
    simpa [List.length_eq_zero] using hcontent
  constructor <;> simp [gen_section, hlen, hcache, hne, hflag]

/-- Witness for C1 on a concrete cached node and two distinct
generators. -/
theorem claim_C1_witness :
    sampleNodeA.content ≠ [] ∧
    sampleNodeA.synthesize_output = some "cached alpha" ∧
    ("cached alpha" : String) ≠ "" ∧
    sampleNodeA.need_regenerate_synthesize_output = false ∧
    (gen_section (fun _ _ _ => "fresh") "t" (some sampleNodeA) sampleKB
        = ("cached alpha", some sampleNodeA) ∧
      gen_section (fun _ _ _ => "fresh") "t" (some sampleNodeA) sampleKB
        = gen_section (fun _ _ _ => "other") "t" (some sampleNodeA) sampleKB) :=
  ⟨by decide, by rfl, by decide, by rfl,
    claim_C1 (fun _ _ _ => "fresh") (fun _ _ _ => "other") "t" sampleNodeA
      sampleKB "cached alpha" (by decide) (by rfl) (by decide) (by rfl)⟩

/-- C5: `generate_persona` with budget `N` returns exactly `N + 1`
personas whenever the underlying generator yields at least `N`
candidates, and the first returned persona is always the fixed default
basic-fact-writer persona. -/
theorem claim_C5 (candidates : List String) (N : Nat)
    (h : N ≤ candidates.length) :
    (generate_persona candidates N).length = N + 1 ∧
    (generate_persona candidates N).head? = some default_persona := by
  constructor
  · simp [generate_persona, List.length_take, Nat.min_eq_left h]
  · rfl

/-- Witness for C5 with three candidates and budget two. -/
theorem claim_C5_witness :
    2 ≤ (["a", "b", "c"] : List String).length ∧
    ((generate_persona ["a", "b", "c"] 2).length = 2 + 1 ∧
      (generate_persona ["a", "b", "c"] 2).head? = some default_persona) :=
  ⟨by decide, claim_C5 ["a", "b", "c"] 2 (by decide)⟩

/-- C8: in both query-decomposition paths the parsed query list is
truncated to `max_search_queries` entries before deduplication, so the
retriever is never invoked with more than `max_search_queries` distinct
queries per question. -/
theorem claim_C8 (raw raw2 : String) (max_search_queries : Nat) :
    ((aq_parse_queries raw max_search_queries).dedup).length
        ≤ max_search_queries ∧
    ((parse_queries raw2 max_search_queries).dedup).length
        ≤ max_search_queries := by
  constructor
  · calc ((aq_parse_queries raw max_search_queries).dedup).length
        ≤ (aq_parse_queries raw max_search_queries).length :=
          (List.dedup_sublist _).length_le
      _ ≤ max_search_queries := by
          simp [aq_parse_queries, parse_queries]
  · calc ((parse_queries raw2 max_search_queries).dedup).length
        ≤ (parse_queries raw2 max_search_queries).length :=
          (List.dedup_sublist _).length_le
      _ ≤ max_search_queries := by
          simp [parse_queries]

/-- C9: an empty cached string (or an absent one) is treated as a missing
cache: for a node with non-empty content whose `synthesize_output` is
`None` or `""`, `gen_section` runs the generation branch even with the
dirty flag clear, producing the freshly generated output and writing it
into the cache. -/
theorem claim_C9 (gen : String → String → String → String) (topic : String)
    (n : KnowledgeNode) (kb : KnowledgeBase)
    (hcontent : n.content ≠ [])
    (hcache : n.synthesize_output = none ∨ n.synthesize_output = some "")
    (hflag : n.need_regenerate_synthesize_output = false) :
    gen_section gen topic (some n) kb = gen_section_generate gen topic n kb ∧
    gen_section gen topic (some n) kb =
      (gen topic
          (get_cited_information_string (collect_all_content n) kb 1500)
          n.name,
        some (n.withCache
          (some (gen topic
            (get_cited_information_string (collect_all_content n) kb 1500)
            n.name)) false)) := by
  have hlen : ¬ n.content.length = 0 := by
    simpa [List.length_eq_zero] using hcontent
  rcases hcache with hc | hc
  · constructor <;> simp [gen_section, hlen, hc, gen_section_generate]
  · constructor <;> simp [gen_section, hlen, hc, hflag, gen_section_generate]

/-- Witness for C9 on a concrete node whose cache is the empty string. -/
theorem claim_C9_witness :
    (KnowledgeNode.mk "Gamma" [3] (some "") false []).content ≠ [] ∧
    ((KnowledgeNode.mk "Gamma" [3] (some "") false []).synthesize_output = none ∨
      (KnowledgeNode.mk "Gamma" [3] (some "") false []).synthesize_output = some "") ∧
    (KnowledgeNode.mk "Gamma" [3] (some "") false []).need_regenerate_synthesize_output = false ∧
    (gen_section sampleGen "t" (some (.mk "Gamma" [3] (some "") false [])) sampleKB
        = gen_section_generate sampleGen "t" (.mk "Gamma" [3] (some "") false []) sampleKB ∧
      gen_section sampleGen "t" (some (.mk "Gamma" [3] (some "") false [])) sampleKB
        = (sampleGen "t"
            (get_cited_information_string
              (collect_all_content (.mk "Gamma" [3] (some "") false [])) sampleKB 1500)
            (KnowledgeNode.mk "Gamma" [3] (some "") false []).name,
          some ((KnowledgeNode.mk "Gamma" [3] (some "") false []).withCache
            (some (sampleGen "t"
              (get_cited_information_string
                (collect_all_content (.mk "Gamma" [3] (some "") false [])) sampleKB 1500)
              (KnowledgeNode.mk "Gamma" [3] (some "") false []).name)) false))) :=
  ⟨by decide, Or.inr (by rfl), by rfl,
    claim_C9 sampleGen "t" (.mk "Gamma" [3] (some "") false []) sampleKB
      (by decide) (Or.inr (by rfl)) (by rfl)⟩

/-- C10: only the first snippet of each Information unit enters either
evidence digest — truncating every unit's snippet list to its first
element changes neither the node digest nor the topic-expert digest. -/
theorem claim_C10 (idxs : List Nat) (kb : KnowledgeBase)
    (results : List Information) (maxWords : Nat) :
    get_cited_information_string idxs
        { kb with info_uuid_to_info_dict :=
            fun i => truncateSnippets (kb.info_uuid_to_info_dict i) }
        maxWords
      = get_cited_information_string idxs kb maxWords ∧
    topic_expert_info (results.map truncateSnippets)
      = topic_expert_info results := by
  constructor
  · have hentry : ∀ index : Nat,
        citedEntry index (truncateSnippets (kb.info_uuid_to_info_dict index))
          = citedEntry index (kb.info_uuid_to_info_dict index) := by
      intro index
      unfold citedEntry truncateSnippets
      cases (kb.info_uuid_to_info_dict index).snippets <;> simp
    unfold get_cited_information_string
    simp only [hentry]
  · unfold topic_expert_info
    have haux : ∀ (l : List Information) (n : Nat),
        topic_expert_info_aux n (l.map truncateSnippets)
          = topic_expert_info_aux n l := by
      intro l
      induction l with
      | nil => intro n; rfl
      | cons r rest ih =>
          intro n
          unfold topic_expert_info_aux
          simp only [List.map_cons]
          rw [ih]
          have : (truncateSnippets r).snippets.take 1 = r.snippets.take 1 := by
            simp [truncateSnippets, List.take_take]
          rw [this]
    exact haux results 0

/-- C2: neither evidence digest ever exceeds its configured word budget
(1500 words for node synthesis, 1000 for question answering), and
truncation drops whole evidence units only: each digest is the
newline-join of a prefix of the full formatted unit list. -/
theorem claim_C2 (all_citation_index : List Nat) (kb : KnowledgeBase)
    (s : String) :
    countWords (get_cited_information_string all_citation_index kb 1500)
        ≤ 1500 ∧
    (∃ k, get_cited_information_string all_citation_index kb 1500
        = joinLines ((((all_citation_index.dedup).insertionSort (· ≤ ·)).map
            (fun index =>
              citedEntry index (kb.info_uuid_to_info_dict index))).take k)) ∧
    countWords (limit_word_count_preserve_newline s 1000) ≤ 1000 ∧
    (∃ k, limit_word_count_preserve_newline s 1000
        = joinLines ((splitLines s).take k)) := by
  refine ⟨?_, ?_, ?_, ?_⟩
  · unfold get_cited_information_string
    rw [countWords_joinLines]
    have := selectEntries_sum_le 1500
      ((((all_citation_index.dedup).insertionSort (· ≤ ·)).map
        (fun index => citedEntry index (kb.info_uuid_to_info_dict index))))
      0 (by omega)
    omega
  · obtain ⟨k, hk⟩ := selectEntries_eq_take 1500
      ((((all_citation_index.dedup).insertionSort (· ≤ ·)).map
        (fun index => citedEntry index (kb.info_uuid_to_info_dict index))))
      0
    exact ⟨k, by simp only [get_cited_information_string]; rw [hk]⟩
  · unfold limit_word_count_preserve_newline
    rw [countWords_joinLines]
    have := selectEntries_sum_le 1000 (splitLines s) 0 (by omega)
    omega
  · obtain ⟨k, hk⟩ := selectEntries_eq_take 1000 (splitLines s) 0
    exact ⟨k, by unfold limit_word_count_preserve_newline; rw [hk]⟩

/-- C4: empty content or empty evidence short-circuits generation:
`gen_section` returns `""` for an empty node, answer synthesis keeps its
insufficient-information sentinel when the formatted evidence text is
empty, and the topic expert returns its no-information sentinel when
retrieval yields nothing — in each case for every generator function,
i.e. without invoking generation. -/
theorem claim_C4 (gen : String → String → String → String) (topic : String)
    (n : KnowledgeNode) (kb : KnowledgeBase) (hcontent : n.content = [])
    (query_gen_output : String) (retrieve : List String → List Information)
    (answer_gen : String → String → String → String → String)
    (clean_answer : String → String) (max_search_queries : Nat)
    (question style : String)
    (hret : retrieve (aq_parse_queries query_gen_output
        max_search_queries).dedup = [])
    (gen_queries_output : String)
    (retrieve2 : List String → List String → List Information)
    (answer_gen2 : String → String → String → Except String String)
    (clean2 : String → String) (ground_truth_url : String)
    (hret2 : retrieve2 (parse_queries gen_queries_output
        max_search_queries).dedup [ground_truth_url] = []) :
    gen_section gen topic (some n) kb = ("", some n) ∧
    (answer_question_forward query_gen_output retrieve answer_gen
        clean_answer max_search_queries topic question style).response
      = "Sorry, there is insufficient information to answer the question." ∧
    (topic_expert_forward gen_queries_output retrieve2 answer_gen2 clean2
        max_search_queries topic question ground_truth_url).answer
      = "Sorry, I cannot find information for this question. Please ask another question." := by
  refine ⟨?_, ?_, ?_⟩
  · simp [gen_section, hcontent]
  · simp only [answer_question_forward]
    rw [hret]
    simp [format_search_results, joinWith]
  · simp only [topic_expert_forward]
    rw [hret2]
    simp

/-- Witness for C4 on a concrete empty node and retrievers that return
nothing. -/
theorem claim_C4_witness :
    (KnowledgeNode.mk "Empty" [] none false []).content = [] ∧
    ((fun _ : List String => ([] : List Information))
        (aq_parse_queries "Queries:\n- a" 3).dedup = []) ∧
    ((fun _ : List String => fun _ : List String => ([] : List Information))
        (parse_queries "- a" 3).dedup ["http://gt"] = []) ∧
    (gen_section sampleGen "t"
        (some (.mk "Empty" [] none false [])) sampleKB
      = ("", some (.mk "Empty" [] none false [])) ∧
    (answer_question_forward "Queries:\n- a"
        (fun _ => []) (fun _ _ _ _ => "generated") (fun a => a) 3
        "t" "why?" "conversational").response
      = "Sorry, there is insufficient information to answer the question." ∧
    (topic_expert_forward "- a"
        (fun _ _ => []) (fun _ _ _ => Except.ok "generated") (fun a => a) 3
        "t" "why?" "http://gt").answer
      = "Sorry, I cannot find information for this question. Please ask another question.") :=
  ⟨by rfl, by rfl, by rfl,
    claim_C4 sampleGen "t" (.mk "Empty" [] none false []) sampleKB (by rfl)
      "Queries:\n- a" (fun _ => []) (fun _ _ _ _ => "generated") (fun a => a)
      3 "why?" "conversational" (by rfl)
      "- a" (fun _ _ => []) (fun _ _ _ => Except.ok "generated") (fun a => a)
      "http://gt" (by rfl)⟩

/-- C7: when the answer-generation call raises, `TopicExpert.forward`
swallows the exception (without retrying: the result does not depend on
the raised error), substitutes the fixed fallback answer string, and
still returns a Prediction carrying the parsed queries and the retrieved
results. -/
theorem claim_C7 (gen_queries_output : String)
    (retrieve : List String → List String → List Information)
    (answer_gen : String → String → String → Except String String)
    (clean_answer : String → String) (max_search_queries : Nat)
    (topic question ground_truth_url : String) (e : String)
    (hfail : ∀ t q i, answer_gen t q i = Except.error e)
    (hres : retrieve (parse_queries gen_queries_output
        max_search_queries).dedup [ground_truth_url] ≠ []) :
    topic_expert_forward gen_queries_output retrieve answer_gen clean_answer
        max_search_queries topic question ground_truth_url
      = ⟨parse_queries gen_queries_output max_search_queries,
          retrieve (parse_queries gen_queries_output
            max_search_queries).dedup [ground_truth_url],
          "Sorry, I cannot answer this question. Please ask another question."⟩ := by
  unfold topic_expert_forward
  have hlen : (retrieve (parse_queries gen_queries_output
      max_search_queries).dedup [ground_truth_url]).length > 0 :=
    List.length_pos.mpr hres
  simp [hlen, hfail]

/-- Witness for C7 with a concrete always-raising answer generator and a
retriever returning one result. -/
theorem claim_C7_witness :
    (∀ t q i, (fun _ _ _ => Except.error "boom" :
        String → String → String → Except String String) t q i
      = Except.error "boom") ∧
    ((fun _ _ => [sampleInfo] :
        List String → List String → List Information)
      (parse_queries "- a" 3).dedup ["http://gt"] ≠ []) ∧
    topic_expert_forward "- a" (fun _ _ => [sampleInfo])
        (fun _ _ _ => Except.error "boom") (fun a => a) 3
        "t" "why?" "http://gt"
      = ⟨parse_queries "- a" 3,
          (fun _ _ => [sampleInfo] :
            List String → List String → List Information)
            (parse_queries "- a" 3).dedup ["http://gt"],
          "Sorry, I cannot answer this question. Please ask another question."⟩ :=
  ⟨fun _ _ _ => rfl, by decide,
    claim_C7 "- a" (fun _ _ => [sampleInfo])
      (fun _ _ _ => Except.error "boom") (fun a => a) 3 "t" "why?"
      "http://gt" "boom" (fun _ _ _ => rfl) (by decide)⟩

/-- C3: `ArticleGenerationModule.forward` is deterministic under worker
scheduling: two runs whose futures complete in any two orders (any two
permutations of the collected node list) assemble byte-identical
documents, because results are gathered into a dictionary keyed by
root-to-node path strings and reassembled by a fixed pre-order walk.
`KeyConsistent` asks that equal path keys carry equal paragraphs, which
holds in particular whenever path strings are distinct across nodes. -/
theorem claim_C3 (gen : String → String → String → String)
    (kb : KnowledgeBase) (order1 order2 : List (List String × KnowledgeNode))
    (h1 : order1.Perm (collect_nodes_with_path [] kb.root))
    (h2 : order2.Perm (collect_nodes_with_path [] kb.root))
    (hc : KeyConsistent ((collect_nodes_with_path [] kb.root).map
        (fun pn => (path_key pn.1, node_generate_paragraph gen kb pn.2)))) :
    forward_from_order gen kb order1 = forward_from_order gen kb order2 := by
  have hk1 : KeyConsistent (order1.map
      (fun pn => (path_key pn.1, node_generate_paragraph gen kb pn.2))) := by
    intro p hp q hq
    exact hc p (((h1.map _).mem_iff).mp hp) q (((h1.map _).mem_iff).mp hq)
  have hk2 : KeyConsistent (order2.map
      (fun pn => (path_key pn.1, node_generate_paragraph gen kb pn.2))) := by
    intro p hp q hq
    exact hc p (((h2.map _).mem_iff).mp hp) q (((h2.map _).mem_iff).mp hq)
  have e1 := buildDict_perm _ _
    (h1.map (fun pn => (path_key pn.1, node_generate_paragraph gen kb pn.2)))
    hk1
  have e2 := buildDict_perm _ _
    (h2.map (fun pn => (path_key pn.1, node_generate_paragraph gen kb pn.2)))
    hk2
  simp only [forward_from_order]
  rw [e1, e2]

/-- Witness for C3: on a concrete two-child tree, submission order and
its reverse assemble the same document. -/
theorem claim_C3_witness :
    (collect_nodes_with_path [] sampleKB.root).Perm
        (collect_nodes_with_path [] sampleKB.root) ∧
    ((collect_nodes_with_path [] sampleKB.root).reverse).Perm
        (collect_nodes_with_path [] sampleKB.root) ∧
    KeyConsistent ((collect_nodes_with_path [] sampleKB.root).map
        (fun pn => (path_key pn.1,
          node_generate_paragraph sampleGen sampleKB pn.2))) ∧
    forward_from_order sampleGen sampleKB
        (collect_nodes_with_path [] sampleKB.root)
      = forward_from_order sampleGen sampleKB
        ((collect_nodes_with_path [] sampleKB.root).reverse) :=
  ⟨List.Perm.refl _, List.reverse_perm _,
    by unfold KeyConsistent; decide,
    claim_C3 sampleGen sampleKB _ _ (List.Perm.refl _) (List.reverse_perm _)
      (by unfold KeyConsistent; decide)⟩

/-- The citation scanner copies bracket-free text unchanged. -/
theorem sepAux_none_append (a rest : List Char) (h : ∀ c ∈ a, c ≠ '[') :
    sepAux none (a ++ rest) = a ++ sepAux none rest := by
  induction a with
  | nil => rfl
  | cons c cs ih =>
      have hc : ¬ c = '[' := h c (List.mem_cons_self c cs)
      simp only [List.cons_append, sepAux, if_neg hc]
      show c :: sepAux none (cs ++ rest) = c :: (cs ++ sepAux none rest)
      rw [ih (fun x hx => h x (List.mem_cons_of_mem c hx))]

/-- The citation scanner rewrites the compound bracket `[2, 5]` to
`[2][5]` and continues scanning after it. -/
theorem sepAux_bracket_two_five (rest : List Char) :
    sepAux none ('[' :: '2' :: ',' :: ' ' :: '5' :: ']' :: rest)
      = '[' :: '2' :: ']' :: '[' :: '5' :: ']' :: sepAux none rest := by
  rfl

/-- C6: citation bracket normalization is deterministic text rewriting:
for any answer string of the form `pre ++ "[2, 5]" ++ post` where `pre`
contains no opening bracket, `separate_citations` yields
`pre ++ "[2][5]"` followed by the normalization of `post` (the output is
a function of the input string alone). -/
theorem claim_C6 (pre post : String) (hpre : ∀ c ∈ pre.data, c ≠ '[') :
    separate_citations (pre ++ "[2, 5]" ++ post)
      = pre ++ "[2][5]" ++ separate_citations post := by
  have hdata : (pre ++ "[2, 5]" ++ post).data
      = pre.data ++ ('[' :: '2' :: ',' :: ' ' :: '5' :: ']' :: post.data) := by
    simp [String.data_append]
  unfold separate_citations
  rw [hdata, sepAux_none_append pre.data _ hpre, sepAux_bracket_two_five]
  apply String.ext
  simp [String.data_append]

/-- Witness for C6 on a concrete answer string; the trailing compound
bracket is normalized as well by the recursive call. -/
theorem claim_C6_witness :
    (∀ c ∈ ("See " : String).data, c ≠ '[') ∧
    separate_citations ("See " ++ "[2, 5]" ++ " also [3, 4].")
      = "See " ++ "[2][5]" ++ separate_citations " also [3, 4]." :=
  ⟨by decide, claim_C6 "See " " also [3, 4]." (by decide)⟩

end Storm
